import Mathlib

set_option maxRecDepth 20000

/-!
Verification of the secret-share-link core of `bucket-common-types`.

The Rust sources (`src/secret_share_link.rs`, `src/share_link.rs`) are
shallowly embedded: byte strings and text are lists of naturals (byte
values / unicode code points), fallible and panicking code returns
`Option` (`none` models a panic: a failed `unwrap`, an out-of-bounds
index, or a `copy_from_slice` length mismatch).  External crates are
modelled at the interface the code uses; the repository's `util.rs`
module is not among the sources, so its two constants are modelled from
the specification (see their doc comments).
-/

namespace BucketCommonTypes

/-- Byte strings and character strings, as lists of naturals. -/
abbrev Bytes := List Nat

/-- Code points of a Lean string literal, used to embed Rust string data. -/
def strCodes (s : String) : List Nat := s.data.map Char.toNat

/-- Modelled from the spec: `util.rs` is missing from the sources.  The
expected host/domain string consumed by the codec (spec section 6: "the
expected host/domain string"); decoding compares the URL's host against it. -/
def DOMAIN_URL : Bytes := strCodes "bucketdrive.co"

/-- Modelled from the spec: `util.rs` is missing from the sources.  The URL
path prefix distinguishing secret share links (spec section 6), following the
grammar `scheme://domain/prefix/...` of spec section 4.5. -/
def SECRET_SHARE_PATH_URL : Bytes := strCodes "/api/v1/secret_share"

/-- `uuid::Uuid`: a 128-bit identifier carried as its 16 raw bytes. -/
structure Uuid where
  bytes : Bytes
deriving DecidableEq

/-- Modelled external crate `time`: an `OffsetDateTime` enters the embedded
code only through its `bincode` serialization, so the value is identified
with the byte string that `bincode::serialize` produces for it. -/
structure OffsetDateTime where
  bincodeBytes : Bytes
deriving DecidableEq

/-- Modelled external crate `bincode`: serializing an `OffsetDateTime`. -/
def bincodeSerialize (t : OffsetDateTime) : Bytes := t.bincodeBytes

/-- Modelled external crate `bincode`: deserializing an `OffsetDateTime`. -/
def bincodeDeserialize (bs : Bytes) : Option OffsetDateTime := some ⟨bs⟩

/-- `BucketSharePermissionFlags` (src/share_link.rs lines 8-20): a 32-bit
flag set generated by the `bitflags` macro. -/
structure BucketSharePermissionFlags where
  bits : Nat
deriving DecidableEq

namespace BucketSharePermissionFlags

def VIEW : BucketSharePermissionFlags := ⟨1⟩

def READ : BucketSharePermissionFlags := ⟨2⟩

def WRITE : BucketSharePermissionFlags := ⟨4⟩

def DELETE_FILE : BucketSharePermissionFlags := ⟨8⟩

def DELETE_BUCKET : BucketSharePermissionFlags := ⟨16⟩

def SHARE_BUCKET : BucketSharePermissionFlags := ⟨32⟩

def CLONE : BucketSharePermissionFlags := ⟨64⟩

def SEARCH : BucketSharePermissionFlags := ⟨128⟩

/-- `Self::all()` as generated by the `bitflags` macro: the union of the
eight defined flags. -/
def all : BucketSharePermissionFlags :=
  ⟨VIEW.bits ||| READ.bits ||| WRITE.bits ||| DELETE_FILE.bits |||
    DELETE_BUCKET.bits ||| SHARE_BUCKET.bits ||| CLONE.bits ||| SEARCH.bits⟩

/-- `from_bits` as generated by the `bitflags` macro: succeeds exactly when
every set bit belongs to a defined flag, otherwise returns `None`. -/
def from_bits (b : Nat) : Option BucketSharePermissionFlags :=
  if b &&& all.bits = b then some ⟨b⟩ else none

end BucketSharePermissionFlags

/-- `SecretShareLink` (src/secret_share_link.rs lines 15-24).  The AES-256
bucket key and the ed25519 signature are carried as raw byte strings. -/
structure SecretShareLink where
  user_id : Uuid
  bucket_id : Uuid
  bucket_key : Bytes
  permission : BucketSharePermissionFlags
  expires : Option OffsetDateTime
  signature : Bytes
deriving DecidableEq

/-- `SecretShareLinkParsingError` (src/secret_share_link.rs lines 74-85). -/
inductive SecretShareLinkParsingError where
  | InvalidHostDomain
  | InvalidVersionFormat
  | Base64Decoding
  | Utf8Error
deriving DecidableEq

/-- `SecretShareLinkVerifySignatureError` (src/secret_share_link.rs
lines 149-153). -/
inductive SecretShareLinkVerifySignatureError where
  | InvalidSignature
deriving DecidableEq

/-- Modelled external crate `sha3` / `digest`: an incremental hasher; each
`update` appends to the data hashed so far. -/
structure Hasher where
  acc : Bytes
deriving DecidableEq

def Hasher.new : Hasher := ⟨[]⟩

def Hasher.update (h : Hasher) (data : Bytes) : Hasher := ⟨h.acc ++ data⟩

/-- Modelled external crate `sha3`: the SHA3-224 digest.  Only its output
length (224 bits = 28 bytes) is relevant to any statement proved here, so
the digest values themselves are an unspecified 28-byte function of the
input. -/
def Sha3_224 (input : Bytes) : Bytes :=
  List.replicate 28 (input.foldl (fun a b => (a + b) % 256) 0)

/-- Rust `<[u8]>::copy_from_slice`: copies `src` over `dst` and panics
(`none`) unless the two slices have equal lengths; returns the new
contents of the destination buffer. -/
def copyFromSlice (dst src : Bytes) : Option Bytes :=
  if src.length = dst.length then some src else none

/-- Rust `u32::to_be_bytes` applied to `permission.bits()`. -/
def u32BeBytes (x : Nat) : Bytes :=
  [(x >>> 24) &&& 255, (x >>> 16) &&& 255, (x >>> 8) &&& 255, x &&& 255]

/-- Rust `u32::from_be_bytes` (applied after a length-4 check). -/
def u32FromBeBytes : Bytes → Nat
  | [a, b, c, d] => ((a * 256 + b) * 256 + c) * 256 + d
  | _ => 0

/-- The sequence of `hasher.update` calls of `hash_secret_share_link`
(src/secret_share_link.rs lines 29-37): the bytes the digest is computed
over.  The signature is not an argument and is never hashed. -/
def secretShareLinkHashInput (user_id bucket_id : Uuid) (bucket_key : Bytes)
    (permission : BucketSharePermissionFlags)
    (expires : Option OffsetDateTime) : Bytes :=
  let hasher := Hasher.new
  let hasher := hasher.update user_id.bytes
  let hasher := hasher.update bucket_id.bytes
  let hasher := hasher.update bucket_key
  let hasher := hasher.update (u32BeBytes permission.bits)
  let hasher := match expires with
    | some t => hasher.update (bincodeSerialize t)
    | none => hasher
  hasher.acc

/-- `hash_secret_share_link` (src/secret_share_link.rs lines 29-39), generic
in the digest `D` like the Rust function: feeds the fields to the hasher and
then runs `output.copy_from_slice(&hasher.finalize())` on the caller's
buffer, which panics (`none`) when the digest length differs from the
buffer length. -/
def hash_secret_share_link (D : Bytes → Bytes) (user_id bucket_id : Uuid)
    (bucket_key : Bytes) (permission : BucketSharePermissionFlags)
    (expires : Option OffsetDateTime) (output : Bytes) : Option Bytes :=
  copyFromSlice output
    (D (secretShareLinkHashInput user_id bucket_id bucket_key permission expires))

/-- Modelled external crate `ed25519_compact`: signing (secret key, noise,
message) and verification (public key, message, signature) are abstract;
the embedded operations are parametric in the implementation. -/
structure Ed25519 where
  sign : Bytes → Bytes → Bytes → Bytes
  verify : Bytes → Bytes → Bytes → Bool

/-- `ed25519_compact::Noise::from_slice`: a 16-byte nonce seed; panics
(`none` after the source's `unwrap`) on any other length. -/
def noiseFromSlice (bs : Bytes) : Option Bytes :=
  if bs.length = 16 then some bs else none

/-- `ed25519_compact::Signature::from_slice`: 64 bytes or failure. -/
def signatureFromSlice (bs : Bytes) : Option Bytes :=
  if bs.length = 64 then some bs else none

/-- `aes_gcm::Key::<Aes256Gcm>::from_slice`: 32 bytes or panic. -/
def keyFromSlice (bs : Bytes) : Option Bytes :=
  if bs.length = 32 then some bs else none

/-- `SecretShareLink::verify_signature` (src/secret_share_link.rs
lines 158-165): hashes the current fields into a 64-byte buffer, then asks
ed25519 to verify the signature; `none` models a panic inside the hash
step. -/
def SecretShareLink.verify_signature (E : Ed25519) (l : SecretShareLink)
    (public_signing_key : Bytes) :
    Option (Except SecretShareLinkVerifySignatureError Unit) :=
  (hash_secret_share_link Sha3_224 l.user_id l.bucket_id l.bucket_key
      l.permission l.expires (List.replicate 64 0)).bind fun hash_output =>
    some (if E.verify public_signing_key hash_output l.signature then
      Except.ok () else
      Except.error SecretShareLinkVerifySignatureError.InvalidSignature)

/-- `SecretShareLink::new` (src/secret_share_link.rs lines 168-187): hashes
the fields into a 64-byte buffer, derives the signing noise from the
bucket id, signs, and assembles the link; `none` models a panic. -/
def SecretShareLink.new (E : Ed25519) (user_id bucket_id : Uuid)
    (bucket_key : Bytes) (permission : BucketSharePermissionFlags)
    (expires : Option OffsetDateTime) (secret_key : Bytes) :
    Option SecretShareLink :=
  (hash_secret_share_link Sha3_224 user_id bucket_id bucket_key permission
      expires (List.replicate 64 0)).bind fun hash_output =>
  (noiseFromSlice bucket_id.bytes).bind fun noise =>
  some ⟨user_id, bucket_id, bucket_key, permission, expires,
    E.sign secret_key noise hash_output⟩

/-- `SecretShareLink::get_token` (src/secret_share_link.rs lines 192-198):
hashes the fields into a 64-byte buffer and returns its first 32 bytes;
`none` models a panic. -/
def SecretShareLink.get_token (l : SecretShareLink) : Option Bytes :=
  (hash_secret_share_link Sha3_224 l.user_id l.bucket_id l.bucket_key
      l.permission l.expires (List.replicate 64 0)).bind fun hash_output =>
  some (hash_output.take 32)

/-- Hex digits, used by the textual form of a `Uuid`. -/
def HEX_LOWER : List Nat := strCodes "0123456789abcdef"

def HEX_UPPER : List Nat := strCodes "0123456789ABCDEF"

def hexChar (n : Nat) : Nat := HEX_LOWER.getD n 48

def byteHex (b : Nat) : List Nat := [hexChar (b / 16), hexChar (b % 16)]

def hexSeq (bs : Bytes) : List Nat := bs.flatMap byteHex

/-- Modelled external crate `uuid`: the hyphenated lowercase-hex `Display`
form of a 16-byte identifier (8-4-4-4-12 digits). -/
def uuidToString (u : Uuid) : Bytes :=
  hexSeq (u.bytes.take 4) ++ [45] ++ hexSeq ((u.bytes.drop 4).take 2)
    ++ [45] ++ hexSeq ((u.bytes.drop 6).take 2)
    ++ [45] ++ hexSeq ((u.bytes.drop 8).take 2)
    ++ [45] ++ hexSeq (u.bytes.drop 10)

def idxOf? (c : Nat) : List Nat → Option Nat
  | [] => none
  | x :: xs => if x = c then some 0 else (idxOf? c xs).map (· + 1)

def hexVal (c : Nat) : Option Nat :=
  match idxOf? c HEX_LOWER with
  | some v => some v
  | none => idxOf? c HEX_UPPER

def hexPairsToBytes : List Nat → Option Bytes
  | [] => some []
  | [_] => none
  | a :: b :: rest => do
      let hi ← hexVal a
      let lo ← hexVal b
      let r ← hexPairsToBytes rest
      pure ((hi * 16 + lo) :: r)

/-- Modelled external crate `uuid`: `str::parse::<uuid::Uuid>`, accepting
the hyphenated form (hyphens at positions 8, 13, 18, 23, 32 hex digits). -/
def parseUuid (s : Bytes) : Option Uuid :=
  if s.length = 36 ∧ s.getD 8 0 = 45 ∧ s.getD 13 0 = 45
      ∧ s.getD 18 0 = 45 ∧ s.getD 23 0 = 45 then
    let hex := s.filter (fun c => c != 45)
    if hex.length = 32 then (hexPairsToBytes hex).map Uuid.mk else none
  else none

/-- The base64url alphabet of `base64::engine::general_purpose::URL_SAFE_NO_PAD`. -/
def B64_ALPHABET : List Nat :=
  strCodes "ABCDEFGHIJKLMNOPQRSTUVWXYZabcdefghijklmnopqrstuvwxyz0123456789-_"

def b64Char (n : Nat) : Nat := B64_ALPHABET.getD n 65

/-- The 6-bit groups of a byte string, in base64 order. -/
def b64Sextets : Bytes → List Nat
  | [] => []
  | [a] => [a / 4, a % 4 * 16]
  | [a, b] => [a / 4, a % 4 * 16 + b / 16, b % 16 * 4]
  | a :: b :: c :: rest =>
      a / 4 :: (a % 4 * 16 + b / 16) :: (b % 16 * 4 + c / 64) :: c % 64
        :: b64Sextets rest

/-- Modelled external crate `base64`: `URL_SAFE_NO_PAD.encode`. -/
def base64UrlEncode (bs : Bytes) : Bytes := (b64Sextets bs).map b64Char

def b64Val (c : Nat) : Option Nat := idxOf? c B64_ALPHABET

/-- Modelled external crate `base64`: `URL_SAFE_NO_PAD.decode`, rejecting
characters outside the alphabet, an impossible remainder-1 length, and
non-zero trailing bits. -/
def base64UrlDecode : Bytes → Option Bytes
  | [] => some []
  | [_] => none
  | [a, b] => do
      let va ← b64Val a
      let vb ← b64Val b
      if vb % 16 = 0 then pure [va * 4 + vb / 16] else none
  | [a, b, c] => do
      let va ← b64Val a
      let vb ← b64Val b
      let vc ← b64Val c
      if vc % 4 = 0 then pure [va * 4 + vb / 16, vb % 16 * 16 + vc / 4]
      else none
  | a :: b :: c :: d :: rest => do
      let va ← b64Val a
      let vb ← b64Val b
      let vc ← b64Val c
      let vd ← b64Val d
      let r ← base64UrlDecode rest
      pure ((va * 4 + vb / 16) :: (vb % 16 * 16 + vc / 4)
        :: (vc % 4 * 64 + vd) :: r)

/-- `ToString for SecretShareLink` (src/secret_share_link.rs lines 41-72):
the URL-shaped wire string; 47 is `/` and 35 is `#`. -/
def SecretShareLink.toString (l : SecretShareLink) : Bytes :=
  match l.expires with
  | some expires =>
      DOMAIN_URL ++ SECRET_SHARE_PATH_URL
        ++ [47] ++ uuidToString l.user_id
        ++ [47] ++ uuidToString l.bucket_id
        ++ [35] ++ base64UrlEncode l.bucket_key
        ++ [35] ++ base64UrlEncode (u32BeBytes l.permission.bits)
        ++ [35] ++ base64UrlEncode (bincodeSerialize expires)
        ++ [35] ++ base64UrlEncode l.signature
  | none =>
      DOMAIN_URL ++ SECRET_SHARE_PATH_URL
        ++ [47] ++ uuidToString l.user_id
        ++ [47] ++ uuidToString l.bucket_id
        ++ [35] ++ base64UrlEncode l.bucket_key
        ++ [35] ++ base64UrlEncode (u32BeBytes l.permission.bits)
        ++ [35] ++ base64UrlEncode l.signature

/-- Modelled external crate `url`: the pieces of a parsed URL that the
embedded code reads (`domain()`, `path()`, `fragment()`). -/
structure Url where
  domain : Option Bytes
  path : Bytes
  fragment : Option Bytes
deriving DecidableEq

/-- Locates the first `://` (58 is `:`, 47 is `/`), returning the text on
either side. -/
def findScheme : Bytes → Option (Bytes × Bytes)
  | [] => none
  | 58 :: 47 :: 47 :: rest => some ([], rest)
  | c :: rest => (findScheme rest).map (fun p => (c :: p.1, p.2))

/-- Modelled external crate `url`: `url::Url::parse`, for the absolute
`scheme://host/path#fragment` shapes relevant here.  A string without a
scheme (a relative URL) fails to parse; the path of a host-only URL is
normalized to `/`; the fragment is everything after the first `#`. -/
def urlParse (s : Bytes) : Option Url :=
  match findScheme s with
  | none => none
  | some sr =>
      let host := sr.2.takeWhile (fun c => c != 47 && c != 35)
      let after := sr.2.dropWhile (fun c => c != 47 && c != 35)
      if host.isEmpty then none
      else
        some ⟨some host,
          if (after.takeWhile (fun c => c != 35)).isEmpty then [47]
          else after.takeWhile (fun c => c != 35),
          match after.dropWhile (fun c => c != 35) with
          | [] => none
          | _ :: t => some t⟩

/-- `TryInto<url::Url> for SecretShareLink` (src/secret_share_link.rs
lines 207-214): renders the link and re-parses it, `unwrap`ping the parse
(`none` models the panic of a failed parse). -/
def SecretShareLink.tryIntoUrl (l : SecretShareLink) : Option Url :=
  urlParse (SecretShareLink.toString l)

/-- Rust `str::split` on one character: `splitOnChar 47` is
`path.split('/')`, `splitOnChar 35` is `s.split('#')`. -/
def splitOnChar (sep : Nat) : Bytes → List Bytes
  | [] => [[]]
  | c :: cs =>
      match splitOnChar sep cs with
      | [] => [[]]
      | h :: t => if c = sep then [] :: h :: t else (c :: h) :: t

/-- The body of `TryFrom<url::Url> for SecretShareLink` after the host
check (src/secret_share_link.rs lines 95-145), reading only the URL's
path, translated panic-for-panic: `none` is a panic (a failed `unwrap` or
an out-of-bounds index).  The source truncates both the path parts and the
fragment parts with `.take(1)` and then indexes positions 1 and beyond,
which this embedding reproduces via `List.get?`. -/
def SecretShareLink.tryFromChecked (path : Bytes) :
    Option (Except SecretShareLinkParsingError SecretShareLink) :=
  let parts := (splitOnChar 47 path).take 1
  (parts.get? 0).bind fun p0 =>
  (parseUuid p0).bind fun user_id =>
  (parts.get? 1).bind fun p1 =>
  (parseUuid p1).bind fun bucket_id =>
  (parts.get? 3).bind fun p3 =>
  let fragments := (splitOnChar 35 p3).take 1
  (fragments.get? 1).bind fun f1 =>
  (base64UrlDecode f1).bind fun keyBytes =>
  (keyFromSlice keyBytes).bind fun bucket_key =>
  (fragments.get? 2).bind fun f2 =>
  (base64UrlDecode f2).bind fun permBytes =>
  (if permBytes.length = 4 then some permBytes else none).bind fun permArr =>
  (BucketSharePermissionFlags.from_bits (u32FromBeBytes permArr)).bind
    fun permission =>
  let has_expires_field := fragments.length = 4
  (if has_expires_field then
      (fragments.get? 3).bind fun f3 =>
      (base64UrlDecode f3).bind fun expBytes =>
      (bincodeDeserialize expBytes).bind fun t => some (some t)
    else some none).bind fun expires =>
  let signature_index := if has_expires_field then 5 else 4
  (fragments.get? signature_index).bind fun fs =>
  (base64UrlDecode fs).bind fun sigBytes =>
  (signatureFromSlice sigBytes).bind fun signature =>
  some (Except.ok ⟨user_id, bucket_id, bucket_key, permission, expires,
    signature⟩)

/-- `TryFrom<url::Url> for SecretShareLink` (src/secret_share_link.rs
lines 87-147): rejects a missing or mismatching host with
`InvalidHostDomain`, then parses the path via `tryFromChecked`. -/
def SecretShareLink.tryFrom (value : Url) :
    Option (Except SecretShareLinkParsingError SecretShareLink) :=
  match value.domain with
  | none => some (Except.error SecretShareLinkParsingError.InvalidHostDomain)
  | some domain =>
    if domain ≠ DOMAIN_URL then
      some (Except.error SecretShareLinkParsingError.InvalidHostDomain)
    else
      SecretShareLink.tryFromChecked value.path

/-- The signed preimage exactly as the specification words it: subject id,
resource id, resource key, the permissions as a 4-byte big-endian integer,
then the optional expiry's binary encoding, or nothing when it is absent;
the signature never appears. -/
def specSignedPreimage (subject_id resource_id : Uuid) (resource_key : Bytes)
    (permissions : BucketSharePermissionFlags)
    (expires_at : Option OffsetDateTime) : Bytes :=
  subject_id.bytes ++ resource_id.bytes ++ resource_key
    ++ [permissions.bits / 16777216 % 256, permissions.bits / 65536 % 256,
        permissions.bits / 256 % 256, permissions.bits % 256]
    ++ (match expires_at with
        | some t => bincodeSerialize t
        | none => [])

/-- The spec's example subject id `11111111-1111-1111-1111-111111111111`. -/
def exSubjectId : Uuid := ⟨List.replicate 16 17⟩

/-- The spec's example resource id `22222222-2222-2222-2222-222222222222`. -/
def exResourceId : Uuid := ⟨List.replicate 16 34⟩

/-- The spec's example permissions, `VIEW | READ`. -/
def exViewRead : BucketSharePermissionFlags := ⟨3⟩

/-- The spec's section 8 example link: zero key, `VIEW | READ`, no expiry. -/
def exLink : SecretShareLink :=
  ⟨exSubjectId, exResourceId, List.replicate 32 0, exViewRead, none,
    List.replicate 64 0⟩

/-- The example link with a different signature and identical other fields. -/
def exLinkAltSig : SecretShareLink :=
  ⟨exSubjectId, exResourceId, List.replicate 32 0, exViewRead, none,
    List.replicate 64 1⟩

/-- An expiry timestamp (identified with its binary serialization). -/
def exDate : OffsetDateTime := ⟨List.replicate 12 1⟩

/-- The example link extended with an expiry. -/
def exLinkExpires : SecretShareLink :=
  ⟨exSubjectId, exResourceId, List.replicate 32 0, exViewRead, some exDate,
    List.replicate 64 0⟩

/-- A concrete ed25519 implementation for witnesses; the statements proved
here hold for every implementation. -/
def trivialEd25519 : Ed25519 :=
  ⟨fun _ _ _ => List.replicate 64 0, fun _ _ _ => false⟩

/-- A well-formed link URL for the example link, handed to the decoder
directly: matching host, the documented path shape, a 3-fragment anchor. -/
def exGoodUrl : Url :=
  ⟨some DOMAIN_URL,
    strCodes
      "/api/v1/secret_share/11111111-1111-1111-1111-111111111111/22222222-2222-2222-2222-222222222222",
    some (strCodes "QUJD#AAAAAA#c2ln")⟩

/-- A well-formed link URL used by the C2 witness. -/
def c2WitnessUrl : Url :=
  ⟨some DOMAIN_URL,
    strCodes
      "/api/v1/secret_share/aaaaaaaa-aaaa-aaaa-aaaa-aaaaaaaaaaaa/bbbbbbbb-bbbb-bbbb-bbbb-bbbbbbbbbbbb",
    some (strCodes "a#b#c")⟩

/-- A link URL whose permissions fragment `AAABAA` decodes to the four
bytes 00 00 01 00, i.e. bit 8 set: a value outside the defined flags. -/
def c5BadPermUrl : Url :=
  ⟨some DOMAIN_URL,
    strCodes
      "/api/v1/secret_share/cccccccc-cccc-cccc-cccc-cccccccccccc/dddddddd-dddd-dddd-dddd-dddddddddddd",
    some (strCodes "QUJD#AAABAA#c2ln")⟩

/-- A link URL whose anchor has four fragments (expiry present). -/
def c9ExpiryUrl : Url :=
  ⟨some DOMAIN_URL,
    strCodes
      "/api/v1/secret_share/eeeeeeee-eeee-eeee-eeee-eeeeeeeeeeee/ffffffff-ffff-ffff-ffff-ffffffffffff",
    some (strCodes "QUJD#AAAAAA#AQID#c2ln")⟩



/-! ### Supporting lemmas -/

lemma sha3_224_length (x : Bytes) : (Sha3_224 x).length = 28 := by
  simp [Sha3_224]

lemma hash64_none (u b : Uuid) (k : Bytes) (p : BucketSharePermissionFlags)
    (e : Option OffsetDateTime) :
    hash_secret_share_link Sha3_224 u b k p e (List.replicate 64 0) = none := by
  simp [hash_secret_share_link, copyFromSlice, sha3_224_length]

lemma take_one_get_one {α : Type} (l : List α) : (l.take 1).get? 1 = none := by
  apply List.get?_eq_none.mpr
  have := List.length_take 1 l
  omega

lemma and255_eq_mod (x : Nat) : x &&& 255 = x % 256 := by
  have h : (255 : Nat) = 2 ^ 8 - 1 := by norm_num
  rw [h]
  exact Nat.and_pow_two_sub_one_eq_mod x 8

lemma shiftRight_and255 (x n : Nat) : (x >>> n) &&& 255 = x / 2 ^ n % 256 := by
  rw [and255_eq_mod, Nat.shiftRight_eq_div_pow]

lemma getD_mem_or_default (l : List Nat) (n d : Nat) :
    l.getD n d ∈ l ∨ l.getD n d = d := by
  rw [List.getD_eq_getElem?_getD]
  cases h : l[n]? with
  | none => right; rfl
  | some c =>
    left
    rw [List.getElem?_eq_some] at h
    obtain ⟨hlt, he⟩ := h
    simpa [he] using List.getElem_mem hlt

lemma b64Char_ne_35 (n : Nat) : b64Char n ≠ 35 := by
  have hall : ∀ x ∈ B64_ALPHABET, x ≠ 35 := by decide
  rcases getD_mem_or_default B64_ALPHABET n 65 with h | h
  · exact hall _ h
  · rw [b64Char, h]; decide

lemma hexChar_ne_35 (n : Nat) : hexChar n ≠ 35 := by
  have hall : ∀ x ∈ HEX_LOWER, x ≠ 35 := by decide
  rcases getD_mem_or_default HEX_LOWER n 48 with h | h
  · exact hall _ h
  · rw [hexChar, h]; decide

lemma count35_base64UrlEncode (bs : Bytes) : (base64UrlEncode bs).count 35 = 0 := by
  apply List.count_eq_zero.mpr
  intro hmem
  rw [base64UrlEncode, List.mem_map] at hmem
  obtain ⟨y, _, hy⟩ := hmem
  exact b64Char_ne_35 y hy

lemma count35_hexSeq (bs : Bytes) : (hexSeq bs).count 35 = 0 := by
  apply List.count_eq_zero.mpr
  intro hmem
  rw [hexSeq, List.mem_flatMap] at hmem
  obtain ⟨y, _, hy⟩ := hmem
  simp only [byteHex, List.mem_cons, List.not_mem_nil, or_false] at hy
  rcases hy with h | h
  · exact hexChar_ne_35 _ h.symm
  · exact hexChar_ne_35 _ h.symm

lemma count35_uuidToString (u : Uuid) : (uuidToString u).count 35 = 0 := by
  simp [uuidToString, List.count_append, count35_hexSeq]

lemma splitOnChar_ne_nil (sep : Nat) (l : Bytes) : splitOnChar sep l ≠ [] := by
  cases l with
  | nil => simp [splitOnChar]
  | cons c cs =>
    simp only [splitOnChar]
    cases hs : splitOnChar sep cs with
    | nil => simp
    | cons h t =>
      by_cases hc : c = sep <;> simp [hc]

lemma splitOnChar_cons (sep c : Nat) (cs : Bytes) :
    splitOnChar sep (c :: cs)
      = if c = sep then [] :: splitOnChar sep cs
        else (c :: (splitOnChar sep cs).headI) :: (splitOnChar sep cs).tail := by
  cases hs : splitOnChar sep cs with
  | nil => exact absurd hs (splitOnChar_ne_nil sep cs)
  | cons h t =>
    by_cases hc : c = sep
    · subst hc
      simp [splitOnChar, hs]
    · simp [splitOnChar, hs, hc]

lemma length_splitOnChar (sep : Nat) (l : Bytes) :
    (splitOnChar sep l).length = l.count sep + 1 := by
  induction l with
  | nil => simp [splitOnChar]
  | cons c cs ih =>
    rw [splitOnChar_cons]
    have hne := splitOnChar_ne_nil sep cs
    by_cases hc : c = sep
    · subst hc
      rw [if_pos rfl]
      simp only [List.length_cons]
      rw [List.count_cons_self]
      omega
    · rw [if_neg hc]
      simp only [List.length_cons]
      rw [List.count_cons_of_ne (fun hx => hc hx.symm)]
      have htl : (splitOnChar sep cs).tail.length + 1
          = (splitOnChar sep cs).length := by
        cases hss : splitOnChar sep cs with
        | nil => exact absurd hss hne
        | cons a t => simp
      omega

/-! ### The claims -/

/-- C1: the round-trip `decode(encode(L))` is claimed to reconstruct the
link.  On the embedded code it never does: re-parsing the rendered string
panics (the modelled configuration constants carry no scheme, so
`url::Url::parse` fails and `TryInto` unwraps the failure), and even
decoding a best-case URL — matching host, documented path shape, complete
fragment — panics on the `take(1)`-truncated path parts.  Evaluated at the
spec's section 8 example link. -/
theorem roundtrip_fails_on_spec_example :
    (SecretShareLink.tryIntoUrl exLink).bind SecretShareLink.tryFrom = none
    ∧ SecretShareLink.tryFrom exGoodUrl = none :=
  ⟨rfl, rfl⟩

/-- C2: decoding is claimed total with typed errors.  In fact for every URL
whose host equals the configured domain the decoder panics: the path parts
are truncated to one element by `take(1)`, so `parts[0]` is the empty
segment (never a UUID, so its `unwrap` panics) and `parts[1]` is out of
bounds. -/
theorem tryFrom_panics_on_matching_host (u : Url)
    (h : u.domain = some DOMAIN_URL) : SecretShareLink.tryFrom u = none := by
  have hbody : SecretShareLink.tryFrom u
      = SecretShareLink.tryFromChecked u.path := by
    unfold SecretShareLink.tryFrom
    rw [h]
    exact if_neg (fun hne => hne rfl)
  rw [hbody]
  unfold SecretShareLink.tryFromChecked
  have h1 : ((splitOnChar 47 u.path).take 1).get? 1 = none := take_one_get_one _
  cases h0 : ((splitOnChar 47 u.path).take 1).get? 0 with
  | none => simp only [h0, Option.none_bind]
  | some p0 =>
    cases hu : parseUuid p0 with
    | none => simp only [h0, hu, Option.some_bind, Option.none_bind]
    | some uid =>
      simp only [h0, hu, h1, Option.some_bind, Option.none_bind]

/-- Witness for C2: the decoder panics on a concrete well-formed link URL
with the configured host. -/
theorem tryFrom_panics_on_matching_host_witness :
    SecretShareLink.tryFrom c2WitnessUrl = none :=
  tryFrom_panics_on_matching_host c2WitnessUrl rfl

/-- C3: the digest input of `hash_secret_share_link` is exactly the spec's
preimage — user id, bucket id, bucket key, permissions as a 4-byte
big-endian integer, then the optional expiry's serialization (nothing when
absent) — and it is independent of the signature: links equal on those five
fields hash the same input whatever their signatures. -/
theorem hash_input_is_spec_preimage :
    (∀ (u b : Uuid) (k : Bytes) (p : BucketSharePermissionFlags)
      (e : Option OffsetDateTime),
      secretShareLinkHashInput u b k p e = specSignedPreimage u b k p e)
    ∧ (∀ l m : SecretShareLink, l.user_id = m.user_id →
      l.bucket_id = m.bucket_id → l.bucket_key = m.bucket_key →
      l.permission = m.permission → l.expires = m.expires →
      secretShareLinkHashInput l.user_id l.bucket_id l.bucket_key
          l.permission l.expires
        = secretShareLinkHashInput m.user_id m.bucket_id m.bucket_key
          m.permission m.expires) := by
  constructor
  · intro u b k p e
    cases e with
    | none =>
      simp [secretShareLinkHashInput, specSignedPreimage, Hasher.new,
        Hasher.update, u32BeBytes, and255_eq_mod, Nat.shiftRight_eq_div_pow]
    | some t =>
      simp [secretShareLinkHashInput, specSignedPreimage, Hasher.new,
        Hasher.update, u32BeBytes, and255_eq_mod, Nat.shiftRight_eq_div_pow]
  · intro l m h1 h2 h3 h4 h5
    rw [h1, h2, h3, h4, h5]

/-- Witness for C3: the example link and its altered-signature twin hash
the same input. -/
theorem hash_input_is_spec_preimage_witness :
    secretShareLinkHashInput exLink.user_id exLink.bucket_id
        exLink.bucket_key exLink.permission exLink.expires
      = secretShareLinkHashInput exLinkAltSig.user_id exLinkAltSig.bucket_id
        exLinkAltSig.bucket_key exLinkAltSig.permission exLinkAltSig.expires :=
  hash_input_is_spec_preimage.2 exLink exLinkAltSig rfl rfl rfl rfl rfl

/-- C4: `verify_signature` is claimed to return `Ok` exactly on a matching
digest/signature/key triple and `InvalidSignature` otherwise.  On the
embedded code it returns neither: evaluated on the spec's example link and
a concrete public key, it panics (the 28-byte SHA3-224 digest is copied
into the 64-byte buffer). -/
theorem verify_signature_panics_on_example :
    SecretShareLink.verify_signature trivialEd25519 exLink
      (List.replicate 32 2) = none :=
  rfl

/-- C5 counterexample: the permissions fragment `AAABAA` of this URL
decodes to the bytes 00 00 01 00, the 32-bit value 256, which has a bit
outside the eight defined flags; `from_bits` does reject it, but decoding
the URL yields `none` (a panic), not a typed `InvalidFlags` error — no such
error variant even exists in `SecretShareLinkParsingError`. -/
theorem from_bits_decode_counterexample :
    base64UrlDecode (strCodes "AAABAA") = some [0, 0, 1, 0]
    ∧ u32FromBeBytes [0, 0, 1, 0] = 256
    ∧ BucketSharePermissionFlags.from_bits 256 = none
    ∧ SecretShareLink.tryFrom c5BadPermUrl = none :=
  ⟨rfl, rfl, rfl, rfl⟩

/-- C5 (amended): `BucketSharePermissionFlags::from_bits` rejects — by
returning `None`, dropping nothing — every value with a bit set outside the
eight defined flags; during link decoding, however, that rejection is
`unwrap`ped into a panic rather than surfaced as a typed error. -/
theorem from_bits_rejects_unknown_bits (b : Nat)
    (h : ∃ i, 8 ≤ i ∧ i < 32 ∧ b.testBit i = true) :
    BucketSharePermissionFlags.from_bits b = none := by
  obtain ⟨i, h8, _, hbit⟩ := h
  unfold BucketSharePermissionFlags.from_bits
  rw [if_neg]
  intro hEq
  have hall : BucketSharePermissionFlags.all.bits = 255 := rfl
  have h1 := congrArg (fun x => Nat.testBit x i) hEq
  simp only [hall, Nat.testBit_and] at h1
  have h255 : Nat.testBit 255 i = false := by
    apply Nat.testBit_lt_two_pow
    have : (2 : Nat) ^ 8 ≤ 2 ^ i := Nat.pow_le_pow_right (by norm_num) h8
    omega
  rw [hbit, h255] at h1
  simp at h1

/-- Witness for C5: bit 8 (the value 256) is rejected. -/
theorem from_bits_rejects_unknown_bits_witness :
    BucketSharePermissionFlags.from_bits 256 = none :=
  from_bits_rejects_unknown_bits 256 ⟨8, by norm_num, by norm_num, by decide⟩

/-- C6: a link built by `new` is claimed to verify under the matching
public key.  On the embedded code `new` returns no link at all: evaluated
at the spec's example fields and a concrete secret key, it panics inside
the hashing step before signing. -/
theorem new_panics_on_example :
    SecretShareLink.new trivialEd25519 exSubjectId exResourceId
      (List.replicate 32 0) exViewRead none (List.replicate 32 3) = none :=
  rfl

/-- C7: `get_token` is claimed to return a 256-bit prefix of the signing
digest.  On the embedded code it returns nothing: evaluated at the example
link with expiry, it panics inside the hashing step (and a 32-byte token
could not be a prefix of the 28-byte SHA3-224 digest anyway). -/
theorem get_token_panics_on_example :
    SecretShareLink.get_token exLinkExpires = none :=
  rfl

/-- C8: signing is claimed reproducible with nonce material derived from
the bucket id.  The nonce expression is indeed a deterministic, injective
function of the bucket id (`Noise::from_slice(bucket_id.as_bytes())`), but
`new` panics in the hashing step before reaching it, for every choice of
implementation, fields and secret key, so no signature is ever produced. -/
theorem new_never_returns_and_noise_is_bucket_id :
    (∀ (E : Ed25519) (u b : Uuid) (k : Bytes)
      (p : BucketSharePermissionFlags) (e : Option OffsetDateTime)
      (sk : Bytes), SecretShareLink.new E u b k p e sk = none)
    ∧ (∀ bs : Bytes, bs.length = 16 → noiseFromSlice bs = some bs)
    ∧ (∀ b1 b2 : Uuid, b1.bytes.length = 16 → b2.bytes.length = 16 →
      noiseFromSlice b1.bytes = noiseFromSlice b2.bytes → b1 = b2) := by
  refine ⟨?_, ?_, ?_⟩
  · intro E u b k p e sk
    unfold SecretShareLink.new
    rw [hash64_none]
    rfl
  · intro bs h
    simp [noiseFromSlice, h]
  · intro b1 b2 h1 h2 he
    simp only [noiseFromSlice, h1, h2, if_pos] at he
    cases b1
    cases b2
    simpa using he

/-- Witness for C8: evaluated at concrete fields, keys and nonce bytes. -/
theorem new_never_returns_and_noise_witness :
    SecretShareLink.new trivialEd25519 exResourceId exSubjectId
      (List.replicate 32 5) exViewRead none (List.replicate 32 4) = none
    ∧ noiseFromSlice (List.replicate 16 7) = some (List.replicate 16 7) :=
  ⟨new_never_returns_and_noise_is_bucket_id.1 trivialEd25519 exResourceId
      exSubjectId (List.replicate 32 5) exViewRead none (List.replicate 32 4),
    new_never_returns_and_noise_is_bucket_id.2.1 (List.replicate 16 7)
      (by simp)⟩

/-- C9: the encoded string indeed carries 3 `#`-separated fragments without
an expiry and 4 with one (so 4 respectively 5 `#`-delimited components in
the whole string), for every link; but decoding does not branch on that
count — handed a URL whose anchor has 4 fragments, the decoder panics on
the truncated path parts before ever counting fragments (and its
`fragments` list, truncated by `take(1)`, could never have length 4). -/
theorem encode_fragment_counts_and_decode_panics :
    (∀ l : SecretShareLink, l.expires = none →
      (SecretShareLink.toString l).count 35 = 3
      ∧ (splitOnChar 35 (SecretShareLink.toString l)).length = 4)
    ∧ (∀ (l : SecretShareLink) (t : OffsetDateTime), l.expires = some t →
      (SecretShareLink.toString l).count 35 = 4
      ∧ (splitOnChar 35 (SecretShareLink.toString l)).length = 5)
    ∧ SecretShareLink.tryFrom c9ExpiryUrl = none := by
  have hdom : (DOMAIN_URL).count 35 = 0 := by decide
  have hpath : (SECRET_SHARE_PATH_URL).count 35 = 0 := by decide
  refine ⟨?_, ?_, rfl⟩
  · intro l h
    have hc : (SecretShareLink.toString l).count 35 = 3 := by
      simp [SecretShareLink.toString, h, List.count_append, hdom, hpath,
        count35_uuidToString, count35_base64UrlEncode]
    exact ⟨hc, by rw [length_splitOnChar, hc]⟩
  · intro l t h
    have hc : (SecretShareLink.toString l).count 35 = 4 := by
      simp [SecretShareLink.toString, h, List.count_append, hdom, hpath,
        count35_uuidToString, count35_base64UrlEncode]
    exact ⟨hc, by rw [length_splitOnChar, hc]⟩

/-- Witness for C9: the fragment counts at the spec's example link, without
and with an expiry. -/
theorem encode_fragment_counts_witness :
    ((SecretShareLink.toString exLink).count 35 = 3
      ∧ (splitOnChar 35 (SecretShareLink.toString exLink)).length = 4)
    ∧ ((SecretShareLink.toString exLinkExpires).count 35 = 4
      ∧ (splitOnChar 35 (SecretShareLink.toString exLinkExpires)).length = 5) :=
  ⟨encode_fragment_counts_and_decode_panics.1 exLink rfl,
    encode_fragment_counts_and_decode_panics.2.1 exLinkExpires exDate rfl⟩

/-- C10: the digest routine feeds the 28-byte SHA3-224 output to
`copy_from_slice` on a 64-byte buffer, whose equal-length precondition
fails, so every call of `new`, `verify_signature` and `get_token` — for
every implementation of the signature scheme, every link and every key —
reaches the panic branch: none of the three operations ever returns. -/
theorem hash_length_mismatch_panics_everywhere :
    (∀ x : Bytes, (Sha3_224 x).length = 28)
    ∧ (∀ x : Bytes, copyFromSlice (List.replicate 64 0) (Sha3_224 x) = none)
    ∧ (∀ (u b : Uuid) (k : Bytes) (p : BucketSharePermissionFlags)
      (e : Option OffsetDateTime),
      hash_secret_share_link Sha3_224 u b k p e (List.replicate 64 0) = none)
    ∧ (∀ (E : Ed25519) (u b : Uuid) (k : Bytes)
      (p : BucketSharePermissionFlags) (e : Option OffsetDateTime)
      (sk : Bytes), SecretShareLink.new E u b k p e sk = none)
    ∧ (∀ (E : Ed25519) (l : SecretShareLink) (pk : Bytes),
      SecretShareLink.verify_signature E l pk = none)
    ∧ (∀ l : SecretShareLink, SecretShareLink.get_token l = none) := by
  refine ⟨sha3_224_length, ?_, hash64_none, ?_, ?_, ?_⟩
  · intro x
    unfold copyFromSlice
    rw [if_neg]
    rw [sha3_224_length, List.length_replicate]
    omega
  · intro E u b k p e sk
    unfold SecretShareLink.new
    rw [hash64_none]
    rfl
  · intro E l pk
    unfold SecretShareLink.verify_signature
    rw [hash64_none]
    rfl
  · intro l
    unfold SecretShareLink.get_token
    rw [hash64_none]
    rfl

end BucketCommonTypes
